import Mathlib

set_option maxRecDepth 40000

/-!
Verification development for the GDELT news ingestion pipeline
(`mongo.py`, `db.py`, `gdelt_loader.py`).

The Python sources are embedded shallowly: pure computations become Lean
functions, and every interaction with the outside world (MongoDB attempts,
S3 contents, JSON parsing, wall-clock sleeps) is made explicit either as an
oracle parameter or as an event recorded in a trace.  Machine integers are
modelled as `Nat` with explicit `% 2^32` where the MD5 algorithm overflows.
-/

/-! ### MD5 (RFC 1321), as used by `hashlib.md5(...).hexdigest()` -/

/-- Little-endian byte decomposition of `n` into `count` bytes. -/
def leBytes (n : Nat) : Nat → List Nat
  | 0 => []
  | c + 1 => (n % 256) :: leBytes (n / 256) c

/-- 32-bit left rotation. -/
def rotl32 (x s : Nat) : Nat := ((x <<< s) ||| (x >>> (32 - s))) % 4294967296

/-- The 64 round constants `K[i] = floor(2^32 * abs(sin(i+1)))` of MD5. -/
def md5K : List Nat :=
  [0xd76aa478, 0xe8c7b756, 0x242070db, 0xc1bdceee,
   0xf57c0faf, 0x4787c62a, 0xa8304613, 0xfd469501,
   0x698098d8, 0x8b44f7af, 0xffff5bb1, 0x895cd7be,
   0x6b901122, 0xfd987193, 0xa679438e, 0x49b40821,
   0xf61e2562, 0xc040b340, 0x265e5a51, 0xe9b6c7aa,
   0xd62f105d, 0x02441453, 0xd8a1e681, 0xe7d3fbc8,
   0x21e1cde6, 0xc33707d6, 0xf4d50d87, 0x455a14ed,
   0xa9e3e905, 0xfcefa3f8, 0x676f02d9, 0x8d2a4c8a,
   0xfffa3942, 0x8771f681, 0x6d9d6122, 0xfde5380c,
   0xa4beea44, 0x4bdecfa9, 0xf6bb4b60, 0xbebfbc70,
   0x289b7ec6, 0xeaa127fa, 0xd4ef3085, 0x04881d05,
   0xd9d4d039, 0xe6db99e5, 0x1fa27cf8, 0xc4ac5665,
   0xf4292244, 0x432aff97, 0xab9423a7, 0xfc93a039,
   0x655b59c3, 0x8f0ccc92, 0xffeff47d, 0x85845dd1,
   0x6fa87e4f, 0xfe2ce6e0, 0xa3014314, 0x4e0811a1,
   0xf7537e82, 0xbd3af235, 0x2ad7d2bb, 0xeb86d391]

/-- The per-round left-rotation amounts of MD5. -/
def md5S : List Nat :=
  [7, 12, 17, 22, 7, 12, 17, 22, 7, 12, 17, 22, 7, 12, 17, 22,
   5, 9, 14, 20, 5, 9, 14, 20, 5, 9, 14, 20, 5, 9, 14, 20,
   4, 11, 16, 23, 4, 11, 16, 23, 4, 11, 16, 23, 4, 11, 16, 23,
   6, 10, 15, 21, 6, 10, 15, 21, 6, 10, 15, 21, 6, 10, 15, 21]

/-- Split a byte list into 64-byte chunks. -/
def chunks64 (l : List Nat) : List (List Nat) :=
  (List.range ((l.length + 63) / 64)).map (fun i => (l.drop (64 * i)).take 64)

/-- The `g`-th little-endian 32-bit word of a 64-byte chunk. -/
def chunkWord (chunk : List Nat) (g : Nat) : Nat :=
  chunk.getD (4 * g) 0 + 256 * chunk.getD (4 * g + 1) 0 +
    65536 * chunk.getD (4 * g + 2) 0 + 16777216 * chunk.getD (4 * g + 3) 0

/-- The MD5 nonlinear function per round group (bitwise NOT is XOR with the
32-bit mask). -/
def md5F (b c d i : Nat) : Nat :=
  if i < 16 then (b &&& c) ||| ((4294967295 ^^^ b) &&& d)
  else if i < 32 then (d &&& b) ||| ((4294967295 ^^^ d) &&& c)
  else if i < 48 then b ^^^ c ^^^ d
  else c ^^^ (b ||| (4294967295 ^^^ d))

/-- The MD5 message-word index per round. -/
def md5G (i : Nat) : Nat :=
  if i < 16 then i
  else if i < 32 then (5 * i + 1) % 16
  else if i < 48 then (3 * i + 5) % 16
  else (7 * i) % 16

/-- One MD5 round on state `(a, b, c, d)`. -/
def md5Step (chunk : List Nat) (st : Nat × Nat × Nat × Nat) (i : Nat) :
    Nat × Nat × Nat × Nat :=
  let f := (md5F st.2.1 st.2.2.1 st.2.2.2 i + st.1 + md5K.getD i 0 +
    chunkWord chunk (md5G i)) % 4294967296
  (st.2.2.2, (st.2.1 + rotl32 f (md5S.getD i 0)) % 4294967296, st.2.1, st.2.2.1)

/-- Process one 64-byte chunk: 64 rounds, then add the incoming state. -/
def md5Chunk (st : Nat × Nat × Nat × Nat) (chunk : List Nat) :
    Nat × Nat × Nat × Nat :=
  let r := (List.range 64).foldl (md5Step chunk) st
  ((st.1 + r.1) % 4294967296, (st.2.1 + r.2.1) % 4294967296,
   (st.2.2.1 + r.2.2.1) % 4294967296, (st.2.2.2 + r.2.2.2) % 4294967296)

/-- MD5 padding: a `0x80` byte, zeros to 56 mod 64, then the 64-bit
little-endian bit length. -/
def md5Pad (msg : List Nat) : List Nat :=
  let len := msg.length
  let k := (119 - len % 64) % 64
  msg ++ 128 :: List.replicate k 0 ++ leBytes ((len * 8) % 18446744073709551616) 8

/-- The 16-byte MD5 digest of a byte message. -/
def md5Digest (msg : List Nat) : List Nat :=
  let st := (chunks64 (md5Pad msg)).foldl md5Chunk
    (0x67452301, 0xefcdab89, 0x98badcfe, 0x10325476)
  leBytes st.1 4 ++ leBytes st.2.1 4 ++ leBytes st.2.2.1 4 ++ leBytes st.2.2.2 4

/-- Lowercase hex digit. -/
def hexChar (n : Nat) : Char := "0123456789abcdef".toList.getD n '0'

/-- Two lowercase hex digits of a byte. -/
def byteHex (b : Nat) : List Char := [hexChar (b / 16), hexChar (b % 16)]

/-- Lowercase hex string of a byte list. -/
def bytesToHex (bs : List Nat) : String := ⟨bs.foldr (fun b acc => byteHex b ++ acc) []⟩

/-- UTF-8 encoding of one character (as Python `str.encode("utf-8")`). -/
def utf8Char (c : Char) : List Nat :=
  let n := c.toNat
  if n < 128 then [n]
  else if n < 2048 then [192 + n / 64, 128 + n % 64]
  else if n < 65536 then [224 + n / 4096, 128 + (n / 64) % 64, 128 + n % 64]
  else [240 + n / 262144, 128 + (n / 4096) % 64, 128 + (n / 64) % 64, 128 + n % 64]

/-- UTF-8 encoding of a string. -/
def strToUtf8 (s : String) : List Nat :=
  s.toList.foldr (fun c acc => utf8Char c ++ acc) []

/-- `hashlib.md5(s.encode("utf-8")).hexdigest()`. -/
def md5Hex (s : String) : String := bytesToHex (md5Digest (strToUtf8 s))

theorem leBytes_length (n c : Nat) : (leBytes n c).length = c := by
  induction c generalizing n with
  | zero => rfl
  | succ c ih => simp [leBytes, ih]

theorem md5Digest_length (msg : List Nat) : (md5Digest msg).length = 16 := by
  simp [md5Digest, leBytes_length]

theorem bytesToHex_length (bs : List Nat) : (bytesToHex bs).length = 2 * bs.length := by
  simp only [bytesToHex, String.length]
  induction bs with
  | nil => rfl
  | cons b rest ih => simp [List.foldr, byteHex] at ih ⊢; omega

/-- Sanity check against the RFC 1321 test vector for the empty message. -/
theorem md5Hex_empty : md5Hex "" = "d41d8cd98f00b204e9800998ecf8427e" := by decide

/-- Sanity check against the RFC 1321 test vector for "abc". -/
theorem md5Hex_abc : md5Hex "abc" = "900150983cd24fb0d6963f7d28e17f72" := by decide

/-! ### Substring search, modelling Python `keyword in s` -/

/-- `true` when `needle` is an initial segment of `hay`. -/
def isPrefixLC : List Char → List Char → Bool
  | [], _ => true
  | _ :: _, [] => false
  | a :: as, b :: bs => a == b && isPrefixLC as bs

/-- `true` when `needle` occurs contiguously inside `hay` (Python `in`). -/
def containsSubLC (needle : List Char) : List Char → Bool
  | [] => isPrefixLC needle []
  | b :: rest => isPrefixLC needle (b :: rest) || containsSubLC needle rest

/-- Python `needle in hay` on strings. -/
def strContainsSub (hay needle : String) : Bool :=
  containsSubLC needle.toList hay.toList

/-- ASCII lowercasing of one character; Python `str.lower()` restricted to the
ASCII range, which covers the keyword matching done here. -/
def lowerChar (c : Char) : Char :=
  if 65 ≤ c.toNat ∧ c.toNat ≤ 90 then Char.ofNat (c.toNat + 32) else c

/-- Python `s.lower()` (ASCII range). -/
def strLower (s : String) : String := ⟨s.toList.map lowerChar⟩

/-! ### Records and documents (`mongo.py` lines 48-77) -/

/-- One parsed feed line, as consumed by `insert_articles`.  Optional string
fields model `dict.get` returning `None` when the key is missing; `extra`
carries passthrough fields that only matter for `str(article)`. -/
structure Article where
  lang : Option String
  title : Option String
  url : Option String
  date : Option String
  docembed : List Int
  extra : List (String × String)
deriving DecidableEq

/-- The persisted document shape built in `insert_articles`. -/
structure Doc where
  _id : String
  date : Option String
  title : Option String
  url : Option String
  lang : Option String
  docembed : List Int
deriving DecidableEq

/-- Python `repr` of an optional string value inside `str(article)`. -/
def pyReprOpt : Option String → String
  | none => "None"
  | some s => "\x27" ++ s ++ "\x27"

/-- Rendering of one passthrough key/value pair inside `str(article)`. -/
def pyReprExtra (kv : String × String) : String :=
  ", \x27" ++ kv.1 ++ "\x27: \x27" ++ kv.2 ++ "\x27"

/-- Python `str(article)`: the dict rendered with its fields in order. -/
def pyStr (a : Article) : String :=
  "\x7b\x27lang\x27: " ++ pyReprOpt a.lang ++
  ", \x27title\x27: " ++ pyReprOpt a.title ++
  ", \x27url\x27: " ++ pyReprOpt a.url ++
  ", \x27date\x27: " ++ pyReprOpt a.date ++
  ", \x27docembed\x27: " ++ toString a.docembed ++
  String.join (a.extra.map pyReprExtra) ++ "\x7d"

/-- Python truthiness of `dict.get(...)` on a string field: `None` and the
empty string are falsy. -/
def pyTruthy : Option String → Bool
  | none => false
  | some s => !(s == "")

/-- The keyword list of `mongo.py`. -/
def KEYWORDS : List String := ["tesla", "apple", "google", "nvidia", "microsoft"]

/-- The per-record filter of `insert_articles`: language first
(`article.get("lang") != "ENGLISH"` skips), then the keyword test on the
lowercased title and url. -/
def keepArticle (a : Article) : Bool :=
  if a.lang != some "ENGLISH" then false
  else
    let title := strLower (a.title.getD "")
    let url := strLower (a.url.getD "")
    KEYWORDS.any (fun keyword => strContainsSub title keyword || strContainsSub url keyword)

/-- `article.get("url") or article.get("title") or str(article)` — Python `or`
falls through on falsy values (missing key and empty string alike). -/
def url_or_title (a : Article) : String :=
  if pyTruthy a.url then a.url.getD ""
  else if pyTruthy a.title then a.title.getD ""
  else pyStr a

/-- `_id = hashlib.md5(url_or_title.encode("utf-8")).hexdigest()`. -/
def derivedId (a : Article) : String := md5Hex (url_or_title a)

/-- The document built for one surviving article. -/
def mkDoc (a : Article) : Doc :=
  { _id := derivedId a, date := a.date, title := a.title, url := a.url,
    lang := a.lang, docembed := a.docembed }

/-- The document-preparation loop of `insert_articles` (lines 56-77). -/
def prepareDocuments : List Article → List Doc
  | [] => []
  | a :: rest =>
    if keepArticle a then mkDoc a :: prepareDocuments rest
    else prepareDocuments rest

theorem prepareDocuments_eq_filterMap (arts : List Article) :
    prepareDocuments arts = (arts.filter keepArticle).map mkDoc := by
  induction arts with
  | nil => rfl
  | cons a rest ih =>
    by_cases h : keepArticle a <;> simp [prepareDocuments, List.filter, h, ih]

/-! ### Cluster configuration and date routing (`mongo.py` 13-46, `db.py` 12-40) -/

/-- A timezone-naive `datetime` value as produced by `datetime.strptime`. -/
structure DateTime where
  year : Nat
  month : Nat
  day : Nat
  hour : Nat
  minute : Nat
  second : Nat
deriving DecidableEq

/-- Python `datetime` comparison: lexicographic on the fields. -/
def DateTime.le (a b : DateTime) : Bool :=
  if a.year < b.year then true else if b.year < a.year then false
  else if a.month < b.month then true else if b.month < a.month then false
  else if a.day < b.day then true else if b.day < a.day then false
  else if a.hour < b.hour then true else if b.hour < a.hour then false
  else if a.minute < b.minute then true else if b.minute < a.minute then false
  else a.second ≤ b.second

/-- One configured cluster; `uriVar` stands for the environment variable whose
value is its connection string. -/
structure Cluster where
  name : String
  uriVar : String
  start_date : DateTime
  end_date : DateTime
deriving DecidableEq

def cluster1 : Cluster :=
  { name := "cluster1", uriVar := "MONGO_ATLAS_URI_1",
    start_date := ⟨2024, 1, 1, 0, 0, 0⟩, end_date := ⟨2024, 3, 1, 23, 59, 59⟩ }

def cluster2 : Cluster :=
  { name := "cluster2", uriVar := "MONGO_ATLAS_URI_2",
    start_date := ⟨2024, 3, 2, 0, 0, 0⟩, end_date := ⟨2024, 4, 26, 23, 59, 59⟩ }

def cluster3 : Cluster :=
  { name := "cluster3", uriVar := "MONGO_ATLAS_URI_3",
    start_date := ⟨2024, 4, 27, 0, 0, 0⟩, end_date := ⟨2024, 6, 30, 23, 59, 59⟩ }

/-- The `CLUSTERS` dict, in insertion (iteration) order. -/
def CLUSTERS : List Cluster := [cluster1, cluster2, cluster3]

/-- `start_date <= date_obj <= end_date` for one cluster. -/
def inRange (c : Cluster) (d : DateTime) : Bool :=
  c.start_date.le d && d.le c.end_date

/-- `get_client_for_date` (`db.py` 30-40, and `mongo.py` 34-46 after parsing):
first matching cluster in iteration order, defaulting to `cluster1`. -/
def get_client_for_date (d : DateTime) : Cluster :=
  match CLUSTERS.find? (fun c => inRange c d) with
  | some c => c
  | none => cluster1

/-! ### Events and outcomes

Side effects of the pipeline are recorded in traces of `Ev` values; the
outcome of each MongoDB bulk-insert attempt and of each `dbstats` command is
supplied by an oracle, since it depends on the remote server. -/

/-- One observable side effect of the pipeline. -/
inductive Ev where
  /-- `MongoClient(...)` resolved inside the retry loop of `insert_articles`,
  from the first document's date string. -/
  | acquireClientFor (dateStr : Option String)
  /-- `time.sleep(s)`. -/
  | sleepSeconds (s : Nat)
  /-- The "All retries failed. Skipping current batch" message. -/
  | warnSkipBatch
  /-- `MongoClient(...)` resolved in `check_storage_limit`. -/
  | acquireCluster (c : Cluster)
  /-- `db.command("dbstats")`. -/
  | statsCommand
  /-- `client.close()`. -/
  | releaseClient
  /-- The "Skipping corrupted line in {key}: {e}" message. -/
  | skipLine (key : String) (e : String)
  /-- The "Processing file: {key}" message. -/
  | processFile (key : String)
  /-- An in-loop flush of a full batch by `process_articles_for_day`. -/
  | flushBatch (b : List Article) (res : Nat × Nat)
  /-- The day-end flush of the trailing batch by `process_articles_for_day`. -/
  | flushFinal (b : List Article) (res : Nat × Nat)
  /-- The "Finished {date_str}" message of the orchestrator. -/
  | processedDay (d : Nat) (ins dup : Nat)
  /-- The line appended to `etl_log.txt`. -/
  | logWrite (dateStr : String) (ins dup : Nat)
  /-- The storage message after `check_storage_limit` returned. -/
  | storageChecked (c : Cluster) (mb : ℚ)
  /-- The "Approaching 512MB limit. Stopping ETL safely!" message. -/
  | capacityStop
deriving DecidableEq

/-- What one `insert_many` attempt does, as reported by the server. -/
inductive AttemptOutcome where
  /-- All documents inserted; `result.inserted_ids` lists them all. -/
  | success
  /-- `ServerSelectionTimeoutError`. -/
  | timeout
  /-- `BulkWriteError` with `details["nInserted"]` and `details["writeErrors"]`. -/
  | bulkError (nInserted : Nat) (writeErrors : Nat)
deriving DecidableEq

/-- Placeholder document for `documents[0]` (never used on the empty list). -/
def defaultDoc : Doc :=
  { _id := "", date := none, title := none, url := none, lang := none, docembed := [] }

/-- The retry loop of `insert_articles` (`mongo.py` 79-98): `r` is the
`retries` counter, `i` the index of the current attempt in the oracle.
Returns the counts, whether `retries` reached 0, and the trace. -/
def insertLoop (docs : List Doc) (oc : Nat → AttemptOutcome) :
    Nat → Nat → (Nat × Nat) × Bool × List Ev
  | 0, _ => ((0, 0), true, [])
  | r + 1, i =>
    let acq := Ev.acquireClientFor (docs.headD defaultDoc).date
    match oc i with
    | .success => ((docs.length, 0), false, [acq])
    | .bulkError n e => ((n, e), false, [acq])
    | .timeout =>
      let rest := insertLoop docs oc r (i + 1)
      (rest.1, rest.2.1, acq :: Ev.sleepSeconds 5 :: rest.2.2)

/-- `insert_articles` (`mongo.py` 48-103): filter and map the records, then
attempt the unordered bulk insert with up to 3 tries.  The function always
returns `(inserted_count, duplicate_count)`; no error escapes it. -/
def insert_articles (articles : List Article) (oc : Nat → AttemptOutcome) :
    (Nat × Nat) × List Ev :=
  let documents := prepareDocuments articles
  if documents.isEmpty then ((0, 0), [])
  else
    let r := insertLoop documents oc 3 0
    (r.1, r.2.2 ++ if r.2.1 then [Ev.warnSkipBatch] else [])

/-- MongoDB semantics of `insert_many(documents, ordered=False)` against a
store holding the `_id` keys in `existing`: every document whose key is
neither stored nor taken by an earlier document of the batch is inserted;
each conflicting document yields one write error and blocks nothing else.
Returns the inserted documents in order and the write-error count. -/
def bulkInsertUnordered (existing : List String) : List Doc → List Doc × Nat
  | [] => ([], 0)
  | d :: rest =>
    if d._id ∈ existing then
      let r := bulkInsertUnordered existing rest
      (r.1, r.2 + 1)
    else
      let r := bulkInsertUnordered (d._id :: existing) rest
      (d :: r.1, r.2)

/-! ### Storage check (`db.py` 42-49) -/

/-- `stats["storageSize"] / (1024 * 1024)`.  The divisor is a power of two, so
the Python float division is exact and `ℚ` models it faithfully
(`storage_mb_eq_div` states the division form). -/
def storage_mb (storageSize : Nat) : ℚ := mkRat storageSize (1024 * 1024)

theorem storage_mb_eq_div (storageSize : Nat) :
    storage_mb storageSize = (storageSize : ℚ) / (1024 * 1024) := by
  rw [storage_mb, Rat.mkRat_eq_div]
  norm_num

/-- `check_storage_limit` (`db.py` 42-49).  The `dbstats` reply is an oracle:
`.ok size` is a normal reply, `.error e` a raised exception.  Note that
`client.close()` runs only after a successful command; an exception leaves
the function before the close. -/
def check_storage_limit (d : DateTime) (statsResult : Except String Nat) :
    Except String ℚ × List Ev :=
  let c := get_client_for_date d
  match statsResult with
  | .error e => (.error e, [Ev.acquireCluster c, Ev.statsCommand])
  | .ok sz => (.ok (storage_mb sz), [Ev.acquireCluster c, Ev.statsCommand, Ev.releaseClient])

/-! ### Feed reading (`gdelt_loader.py` 23-38) -/

/-- ASCII whitespace, as stripped by Python `str.strip()`. -/
def isSpaceChar (c : Char) : Bool :=
  c == ' ' || c == '\t' || c == '\n' || c == '\r' || c == '\x0b' || c == '\x0c'

/-- Python `line.strip()`: whitespace removed from both ends. -/
def pyStrip (s : String) : String :=
  ⟨((s.toList.dropWhile isSpaceChar).reverse.dropWhile isSpaceChar).reverse⟩

/-- `read_gz_file_from_s3`: the decompressed lines of one object, each
decoded (with replacement, so decoding never raises), stripped, skipped when
blank, and parsed by the `json.loads` oracle `parse`.  A parse failure is
logged with the source key and skipped; the remaining lines still run. -/
def read_gz_file_from_s3 (parse : String → Except String Article) (key : String) :
    List String → List Article × List Ev
  | [] => ([], [])
  | l :: rest =>
    let r := read_gz_file_from_s3 parse key rest
    let t := pyStrip l
    if t == "" then r
    else
      match parse t with
      | .ok a => (a :: r.1, r.2)
      | .error e => (r.1, Ev.skipLine key e :: r.2)

/-! ### Daily batching (`gdelt_loader.py` 40-65) -/

/-- The per-file loop of `process_articles_for_day`: `pending` is
`pending_batch`, `ti`/`td` the running totals, `st` the writer state
(threaded through `insert_articles` calls, whose results the oracle `writer`
supplies).  A full batch (`len >= 500`) is flushed at once and followed by
`time.sleep(1)`; the trailing batch is flushed after the last file. -/
def processLoop {σ : Type} (parse : String → Except String Article)
    (writer : σ → List Article → (Nat × Nat) × σ) :
    List (String × List String) → List Article → Nat → Nat → σ →
      (Nat × Nat) × σ × List Ev
  | [], pending, ti, td, st =>
    if pending.isEmpty then ((ti, td), st, [])
    else
      let w := writer st pending
      ((ti + w.1.1, td + w.1.2), w.2, [Ev.flushFinal pending w.1])
  | (key, lines) :: rest, pending, ti, td, st =>
    let rd := read_gz_file_from_s3 parse key lines
    let fileEvs := Ev.processFile key :: rd.2
    if rd.1.isEmpty then
      let r := processLoop parse writer rest pending ti td st
      (r.1, r.2.1, fileEvs ++ r.2.2)
    else
      let pending2 := pending ++ rd.1
      if 500 ≤ pending2.length then
        let w := writer st pending2
        let r := processLoop parse writer rest [] (ti + w.1.1) (td + w.1.2) w.2
        (r.1, r.2.1, fileEvs ++ Ev.flushBatch pending2 w.1 :: Ev.sleepSeconds 1 :: r.2.2)
      else
        let r := processLoop parse writer rest pending2 ti td st
        (r.1, r.2.1, fileEvs ++ r.2.2)

/-- `process_articles_for_day` on the day's listed files (key with lines). -/
def process_articles_for_day {σ : Type} (parse : String → Except String Article)
    (writer : σ → List Article → (Nat × Nat) × σ)
    (files : List (String × List String)) (st : σ) : (Nat × Nat) × σ × List Ev :=
  processLoop parse writer files [] 0 0 st

/-! ### Calendar and the orchestrator (`db.py` 51-78) -/

/-- Gregorian leap year. -/
def isLeap (y : Nat) : Bool := (y % 4 == 0 && y % 100 != 0) || y % 400 == 0

/-- Days in a Gregorian month. -/
def daysInMonth (y m : Nat) : Nat :=
  if m == 2 then (if isLeap y then 29 else 28)
  else if m == 4 || m == 6 || m == 9 || m == 11 then 30 else 31

/-- A calendar date, the date part of `current_date` in the orchestrator. -/
structure Date where
  year : Nat
  month : Nat
  day : Nat
deriving DecidableEq

/-- `current_date + timedelta(days=1)`. -/
def nextDay (d : Date) : Date :=
  if d.day < daysInMonth d.year d.month then ⟨d.year, d.month, d.day + 1⟩
  else if d.month < 12 then ⟨d.year, d.month + 1, 1⟩
  else ⟨d.year + 1, 1, 1⟩

/-- The date `n` days after `base`; day `n` of a run starting at `base`. -/
def dateO (base : Date) (n : Nat) : Date := nextDay^[n] base

/-- The midnight `datetime` of a date (as `datetime.strptime("...","%Y%m%d")`). -/
def Date.toDateTime (d : Date) : DateTime := ⟨d.year, d.month, d.day, 0, 0, 0⟩

/-- Zero-padded two-digit field of `strftime`. -/
def pad2 (n : Nat) : String := if n < 10 then "0" ++ toString n else toString n

/-- `current_date.strftime("%Y%m%d")`. -/
def dateStr8 (d : Date) : String := toString d.year ++ pad2 d.month ++ pad2 d.day

/-- The `while current_date <= end_date` loop of `load_articles_for_date_range`
(`db.py` 51-78), with days numbered from the run's `base` date.  `daysLeft`
counts the loop iterations still allowed (`endD + 1 - current` on entry), so
the structural recursion visits exactly the days `current, ..., endD`.  Each
day: process its files, report and log, check storage of the cluster
governing the day, and either stop at the capacity ceiling (`> 490` MB) or
advance one calendar day.  Events are tagged with the day they belong to. -/
def loadLoop {σ : Type} (parse : String → Except String Article)
    (writer : σ → List Article → (Nat × Nat) × σ) (stats : Nat → Nat)
    (filesOf : Nat → List (String × List String)) (base : Date) :
    Nat → Nat → σ → List (Nat × Ev)
  | 0, _, _ => []
  | daysLeft + 1, current, st =>
    let day := process_articles_for_day parse writer (filesOf current) st
    let chk := check_storage_limit (dateO base current).toDateTime (.ok (stats current))
    let mb := storage_mb (stats current)
    let dayEvs := (day.2.2.map (fun e => (current, e))) ++
      [(current, Ev.processedDay current day.1.1 day.1.2),
       (current, Ev.logWrite (dateStr8 (dateO base current)) day.1.1 day.1.2)] ++
      (chk.2.map (fun e => (current, e))) ++
      [(current, Ev.storageChecked (get_client_for_date (dateO base current).toDateTime) mb)]
    if 490 < mb then dayEvs ++ [(current, Ev.capacityStop)]
    else dayEvs ++ loadLoop parse writer stats filesOf base daysLeft (current + 1) day.2.1

/-- `load_articles_for_date_range` over day indices `startD..endD` (relative
to `base`): the recorded trace of the whole run. -/
def load_articles_for_date_range {σ : Type} (parse : String → Except String Article)
    (writer : σ → List Article → (Nat × Nat) × σ) (stats : Nat → Nat)
    (filesOf : Nat → List (String × List String)) (base : Date)
    (startD endD : Nat) (st : σ) : List (Nat × Ev) :=
  loadLoop parse writer stats filesOf base (endD + 1 - startD) startD st

/-! ### Claims -/

/-- C1: the persisted `_id` is the 128-bit MD5 hex digest (32 lowercase hex
characters) of the record's URL when present (truthy), otherwise of its
title, otherwise of the string form of the whole record; two records with
the same URL (or the same title when both URLs are absent) get equal
identifiers; and every document prepared for persistence carries exactly
`derivedId` of its source record — a pure function of the record alone, so
the identifier cannot depend on ingestion time or on the rest of the batch. -/
theorem C1_id_is_content_hash :
    (∀ a : Article, pyTruthy a.url = true → derivedId a = md5Hex (a.url.getD ""))
  ∧ (∀ a : Article, pyTruthy a.url = false → pyTruthy a.title = true →
      derivedId a = md5Hex (a.title.getD ""))
  ∧ (∀ a : Article, pyTruthy a.url = false → pyTruthy a.title = false →
      derivedId a = md5Hex (pyStr a))
  ∧ (∀ a b : Article, pyTruthy a.url = true → a.url = b.url →
      derivedId a = derivedId b)
  ∧ (∀ a b : Article, pyTruthy a.url = false → pyTruthy b.url = false →
      pyTruthy a.title = true → a.title = b.title → derivedId a = derivedId b)
  ∧ (∀ s : String, (md5Hex s).length = 32)
  ∧ (∀ arts : List Article, ∀ d ∈ prepareDocuments arts,
      ∃ a ∈ arts, keepArticle a = true ∧ d = mkDoc a ∧ d._id = derivedId a) := by
  refine ⟨?_, ?_, ?_, ?_, ?_, ?_, ?_⟩
  · intro a h; simp [derivedId, url_or_title, h]
  · intro a h1 h2; simp [derivedId, url_or_title, h1, h2]
  · intro a h1 h2; simp [derivedId, url_or_title, h1, h2]
  · intro a b h1 h2
    have hb : pyTruthy b.url = true := by rw [← h2]; exact h1
    simp [derivedId, url_or_title, h1, hb, h2]
  · intro a b h1 h2 h3 h4
    have hb : pyTruthy b.title = true := by rw [← h4]; exact h3
    simp [derivedId, url_or_title, h1, h2, h3, hb, h4]
  · intro s; simp [md5Hex, bytesToHex_length, md5Digest_length]
  · intro arts
    induction arts with
    | nil => intro d hd; simp [prepareDocuments] at hd
    | cons a rest ih =>
      intro d hd
      by_cases hk : keepArticle a
      · simp only [prepareDocuments, hk, if_true, List.mem_cons] at hd
        rcases hd with h | h
        · exact ⟨a, List.mem_cons_self a rest, hk, h, by rw [h]; rfl⟩
        · obtain ⟨a2, ha2, hk2, he, hid⟩ := ih d h
          exact ⟨a2, List.mem_cons_of_mem a ha2, hk2, he, hid⟩
      · simp only [prepareDocuments, hk, if_false] at hd
        obtain ⟨a2, ha2, hk2, he, hid⟩ := ih d hd
        exact ⟨a2, List.mem_cons_of_mem a ha2, hk2, he, hid⟩

/-- Witness for C1 at concrete records: a record with a URL hashes the URL,
and two records sharing a URL share an identifier. -/
theorem C1_id_is_content_hash_witness :
    derivedId { lang := some "ENGLISH", title := some "Tesla up",
                url := some "https://news.example/tesla", date := some "2024-01-15T00:00:00Z",
                docembed := [], extra := [] } = md5Hex "https://news.example/tesla"
  ∧ derivedId { lang := some "ENGLISH", title := some "Tesla up",
                url := some "https://news.example/tesla", date := some "2024-01-15T00:00:00Z",
                docembed := [], extra := [] }
      = derivedId { lang := some "ENGLISH", title := some "Other title",
                    url := some "https://news.example/tesla", date := some "2024-02-02T00:00:00Z",
                    docembed := [1], extra := [("src", "gdelt")] } :=
  ⟨C1_id_is_content_hash.1 _ (by decide),
   C1_id_is_content_hash.2.2.2.1 _ _ (by decide) rfl⟩

/-- C2: the per-record filters of `insert_articles`, in order: a record whose
language tag is not exactly `"ENGLISH"` is rejected; a record none of whose
lowercased title/url contains a configured keyword is rejected; the kept
records are exactly those passing both; and a rejected record contributes
nothing — dropping it from the input changes neither the persisted documents
nor the returned `(inserted_count, duplicate_count)`. -/
theorem C2_rejection_filters :
    (∀ a : Article, a.lang ≠ some "ENGLISH" → keepArticle a = false)
  ∧ (∀ a : Article,
      (∀ k ∈ KEYWORDS, strContainsSub (strLower (a.title.getD "")) k = false ∧
        strContainsSub (strLower (a.url.getD "")) k = false) → keepArticle a = false)
  ∧ (∀ a : Article, keepArticle a = true ↔ (a.lang = some "ENGLISH" ∧
      ∃ k ∈ KEYWORDS, (strContainsSub (strLower (a.title.getD "")) k = true ∨
        strContainsSub (strLower (a.url.getD "")) k = true)))
  ∧ (∀ (a : Article) (arts : List Article) (oc : Nat → AttemptOutcome),
      keepArticle a = false →
      prepareDocuments (a :: arts) = prepareDocuments arts ∧
      insert_articles (a :: arts) oc = insert_articles arts oc) := by
  refine ⟨?_, ?_, ?_, ?_⟩
  · intro a h
    simp [keepArticle, h]
  · intro a h
    simp only [keepArticle]
    split
    · rfl
    · simp only [List.any_eq_false]
      intro k hk
      rcases h k hk with ⟨h1, h2⟩
      simp [h1, h2]
  · intro a
    constructor
    · intro h
      simp only [keepArticle] at h
      split at h
      · exact absurd h (by simp)
      · rename_i hl
        simp only [bne_iff_ne, ne_eq, not_not] at hl
        refine ⟨hl, ?_⟩
        simpa [List.any_eq_true, Bool.or_eq_true] using h
    · rintro ⟨hl, k, hk, hc⟩
      have hany : (KEYWORDS.any fun keyword =>
          strContainsSub (strLower (a.title.getD "")) keyword ||
            strContainsSub (strLower (a.url.getD "")) keyword) = true :=
        List.any_eq_true.mpr ⟨k, hk, by simpa using hc⟩
      simp [keepArticle, hl, hany]
  · intro a arts oc h
    have hp : prepareDocuments (a :: arts) = prepareDocuments arts := by
      simp [prepareDocuments, h]
    exact ⟨hp, by simp [insert_articles, hp]⟩

/-- Witness for C2: a non-English record is rejected and removing it changes
nothing about the call's result. -/
theorem C2_rejection_filters_witness :
    keepArticle { lang := some "SPANISH", title := some "tesla", url := none,
                  date := none, docembed := [], extra := [] } = false
  ∧ insert_articles [{ lang := some "SPANISH", title := some "tesla", url := none,
                       date := none, docembed := [], extra := [] }] (fun _ => .success)
      = insert_articles [] (fun _ => .success) :=
  ⟨C2_rejection_filters.1 _ (by decide),
   (C2_rejection_filters.2.2.2 _ [] _ (C2_rejection_filters.1 _ (by decide))).2⟩

/-- A sample record that passes both filters (English, "tesla" in title). -/
def aTesla : Article :=
  { lang := some "ENGLISH", title := some "Tesla hits record",
    url := some "https://news.example/tesla-up",
    date := some "2024-01-15T00:00:00Z", docembed := [], extra := [] }

/-- C3: when every attempt raises `ServerSelectionTimeoutError`,
`insert_articles` makes exactly 3 attempts, each resolving a fresh client
from the first document's date and followed by a 5-second sleep, then logs
the skip warning and returns `(0, 0)` normally (the embedding is a total
function: nothing is raised, so the caller's loop goes on to later batches). -/
theorem C3_timeout_retry_exhaustion :
    ∀ (arts : List Article) (oc : Nat → AttemptOutcome),
      prepareDocuments arts ≠ [] → (∀ i, i < 3 → oc i = .timeout) →
      insert_articles arts oc =
        ((0, 0),
         [Ev.acquireClientFor ((prepareDocuments arts).headD defaultDoc).date,
          Ev.sleepSeconds 5,
          Ev.acquireClientFor ((prepareDocuments arts).headD defaultDoc).date,
          Ev.sleepSeconds 5,
          Ev.acquireClientFor ((prepareDocuments arts).headD defaultDoc).date,
          Ev.sleepSeconds 5, Ev.warnSkipBatch]) := by
  intro arts oc hne hto
  have h0 := hto 0 (by omega)
  have h1 := hto 1 (by omega)
  have h2 := hto 2 (by omega)
  have hni : (prepareDocuments arts).isEmpty = false := by
    simpa using hne
  simp [insert_articles, insertLoop, hni, h0, h1, h2]

/-- Witness for C3: a concrete batch against an always-timing-out server. -/
theorem C3_timeout_retry_exhaustion_witness :
    insert_articles [aTesla] (fun _ => .timeout) =
      ((0, 0),
       [Ev.acquireClientFor ((prepareDocuments [aTesla]).headD defaultDoc).date,
        Ev.sleepSeconds 5,
        Ev.acquireClientFor ((prepareDocuments [aTesla]).headD defaultDoc).date,
        Ev.sleepSeconds 5,
        Ev.acquireClientFor ((prepareDocuments [aTesla]).headD defaultDoc).date,
        Ev.sleepSeconds 5, Ev.warnSkipBatch]) :=
  C3_timeout_retry_exhaustion [aTesla] _ (by decide) (fun _ _ => rfl)

/-- C4: when an attempt ends in `BulkWriteError`, `insert_articles` returns
`inserted_count = nInserted` and `duplicate_count = len(writeErrors)` from
the error's details instead of raising; and in the unordered-bulk-insert
model a document whose `_id` conflicts neither with the store nor with an
earlier document of the batch is inserted no matter how many other documents
conflict, with every document accounted as either inserted or an error. -/
theorem C4_bulk_write_error_accounting :
    (∀ (arts : List Article) (oc : Nat → AttemptOutcome) (i n e : Nat),
      prepareDocuments arts ≠ [] → i < 3 → (∀ j, j < i → oc j = .timeout) →
      oc i = .bulkError n e →
      (insert_articles arts oc).1 = (n, e))
  ∧ (∀ (existing : List String) (pre post : List Doc) (d : Doc),
      d._id ∉ existing → d._id ∉ pre.map Doc._id →
      d ∈ (bulkInsertUnordered existing (pre ++ d :: post)).1)
  ∧ (∀ (existing : List String) (docs : List Doc),
      (bulkInsertUnordered existing docs).1.length + (bulkInsertUnordered existing docs).2
        = docs.length) := by
  refine ⟨?_, ?_, ?_⟩
  · intro arts oc i n e hne hi hj hoc
    have hni : (prepareDocuments arts).isEmpty = false := by simpa using hne
    interval_cases i
    · simp [insert_articles, insertLoop, hni, hoc]
    · have g0 := hj 0 (by omega)
      simp [insert_articles, insertLoop, hni, g0, hoc]
    · have g0 := hj 0 (by omega)
      have g1 := hj 1 (by omega)
      simp [insert_articles, insertLoop, hni, g0, g1, hoc]
  · intro existing pre post d hc hnp
    induction pre generalizing existing with
    | nil =>
      simp only [List.nil_append, bulkInsertUnordered, if_neg hc]
      exact List.mem_cons_self _ _
    | cons p rest ih =>
      simp only [List.map_cons, List.mem_cons, not_or] at hnp
      obtain ⟨hne_p, hnp2⟩ := hnp
      simp only [List.cons_append, bulkInsertUnordered]
      by_cases hcp : p._id ∈ existing
      · rw [if_pos hcp]
        exact ih existing hc hnp2
      · rw [if_neg hcp]
        refine List.mem_cons_of_mem _ (ih (p._id :: existing) ?_ hnp2)
        simp only [List.mem_cons, not_or]
        exact ⟨hne_p, hc⟩
  · intro existing docs
    induction docs generalizing existing with
    | nil => simp [bulkInsertUnordered]
    | cons p rest ih =>
      by_cases hcp : p._id ∈ existing
      · have := ih existing
        simp only [bulkInsertUnordered, if_pos hcp, List.length_cons]
        omega
      · have := ih (p._id :: existing)
        simp only [bulkInsertUnordered, if_neg hcp, List.length_cons]
        omega

/-- Witness for C4: a concrete bulk-write failure reporting 2 inserts and 3
write errors, and a concrete batch where a conflicting document does not
block a fresh one. -/
theorem C4_bulk_write_error_accounting_witness :
    (insert_articles [aTesla] (fun _ => .bulkError 2 3)).1 = (2, 3)
  ∧ ({ defaultDoc with _id := "b" } ∈ (bulkInsertUnordered ["a"]
        [{ defaultDoc with _id := "a" }, { defaultDoc with _id := "b" }]).1) :=
  ⟨C4_bulk_write_error_accounting.1 [aTesla] _ 0 2 3 (by decide) (by omega)
      (fun j hj => absurd hj (by omega)) rfl,
   C4_bulk_write_error_accounting.2.1 ["a"] [{ defaultDoc with _id := "a" }] []
      { defaultDoc with _id := "b" } (by simp) (by simp)⟩

/-- C5: cluster resolution is total — every `datetime` maps to the first
configured cluster whose inclusive range contains it, and to the default
`cluster1` (the first configured cluster) when no range matches; the
function returns on every input, so resolution never fails. -/
theorem C5_cluster_resolution_total :
    ∀ d : DateTime,
      (inRange cluster1 d = true → get_client_for_date d = cluster1)
    ∧ (inRange cluster1 d = false → inRange cluster2 d = true →
        get_client_for_date d = cluster2)
    ∧ (inRange cluster1 d = false → inRange cluster2 d = false →
        inRange cluster3 d = true → get_client_for_date d = cluster3)
    ∧ ((∀ c ∈ CLUSTERS, inRange c d = false) → get_client_for_date d = cluster1)
    ∧ CLUSTERS.headD cluster1 = cluster1 := by
  intro d
  refine ⟨?_, ?_, ?_, ?_, rfl⟩
  · intro h1; simp [get_client_for_date, CLUSTERS, List.find?, h1]
  · intro h1 h2; simp [get_client_for_date, CLUSTERS, List.find?, h1, h2]
  · intro h1 h2 h3; simp [get_client_for_date, CLUSTERS, List.find?, h1, h2, h3]
  · intro h
    have h1 := h cluster1 (by simp [CLUSTERS])
    have h2 := h cluster2 (by simp [CLUSTERS])
    have h3 := h cluster3 (by simp [CLUSTERS])
    simp [get_client_for_date, CLUSTERS, List.find?, h1, h2, h3]

/-- Witness for C5: a date inside cluster2's range resolves to cluster2, and
a date outside every range falls back to cluster1. -/
theorem C5_cluster_resolution_total_witness :
    get_client_for_date ⟨2024, 3, 15, 0, 0, 0⟩ = cluster2
  ∧ get_client_for_date ⟨2030, 1, 1, 0, 0, 0⟩ = cluster1 :=
  ⟨(C5_cluster_resolution_total _).2.1 (by decide) (by decide),
   (C5_cluster_resolution_total _).2.2.2.1 (by decide)⟩

/-- Both components of the reader concatenate over split line lists. -/
theorem read_gz_append (parse : String → Except String Article) (key : String)
    (xs ys : List String) :
    read_gz_file_from_s3 parse key (xs ++ ys)
      = ((read_gz_file_from_s3 parse key xs).1 ++ (read_gz_file_from_s3 parse key ys).1,
         (read_gz_file_from_s3 parse key xs).2 ++ (read_gz_file_from_s3 parse key ys).2) := by
  induction xs with
  | nil => simp [read_gz_file_from_s3]
  | cons l rest ih =>
    simp only [List.cons_append, read_gz_file_from_s3]
    by_cases ht : pyStrip l = ""
    · simpa [ht] using ih
    · simp only [beq_iff_eq, ht, if_false]
      cases hp : parse (pyStrip l) with
      | ok a => simp [ht, hp, ih]
      | error e => simp [ht, hp, ih]

/-- C8: a line whose stripped text fails JSON parsing is skipped — the
records produced for the file are exactly those of the lines before plus
those of the lines after the corrupt one — and the skip is logged with the
source key and the error; the reader is a total function, so the failure
never propagates out of `read_gz_file_from_s3`. -/
theorem C8_corrupt_line_skipped :
    ∀ (parse : String → Except String Article) (key : String)
      (pre post : List String) (bad e : String),
      pyStrip bad ≠ "" → parse (pyStrip bad) = .error e →
      (read_gz_file_from_s3 parse key (pre ++ bad :: post)).1
        = (read_gz_file_from_s3 parse key pre).1 ++ (read_gz_file_from_s3 parse key post).1
      ∧ Ev.skipLine key e ∈ (read_gz_file_from_s3 parse key (pre ++ bad :: post)).2 := by
  intro parse key pre post bad e ht hp
  have hbad : read_gz_file_from_s3 parse key (bad :: post)
      = ((read_gz_file_from_s3 parse key post).1,
         Ev.skipLine key e :: (read_gz_file_from_s3 parse key post).2) := by
    simp [read_gz_file_from_s3, ht, hp]
  rw [read_gz_append parse key pre (bad :: post), hbad]
  exact ⟨rfl, by simp⟩

/-- Witness for C8: a file with a good line, a corrupt line, and another
good line yields both good records and logs the skip. -/
theorem C8_corrupt_line_skipped_witness :
    (read_gz_file_from_s3
        (fun s => if s = "good" then .ok aTesla else .error "invalid json") "20240115/a.gz"
        (["good"] ++ "oops" :: ["good"])).1
      = (read_gz_file_from_s3
          (fun s => if s = "good" then .ok aTesla else .error "invalid json") "20240115/a.gz"
          ["good"]).1 ++
        (read_gz_file_from_s3
          (fun s => if s = "good" then .ok aTesla else .error "invalid json") "20240115/a.gz"
          ["good"]).1
  ∧ Ev.skipLine "20240115/a.gz" "invalid json" ∈
      (read_gz_file_from_s3
        (fun s => if s = "good" then .ok aTesla else .error "invalid json") "20240115/a.gz"
        (["good"] ++ "oops" :: ["good"])).2 :=
  C8_corrupt_line_skipped _ "20240115/a.gz" ["good"] ["good"] "oops" "invalid json"
    (by decide) rfl

/-! ### Trace bookkeeping for the batching loop -/

/-- The `(inserted, duplicates)` result carried by a flush event. -/
def evFlush : Ev → Nat × Nat
  | .flushBatch _ r => r
  | .flushFinal _ r => r
  | _ => (0, 0)

/-- Sum of the writer results over all flushes of a trace. -/
def flushSum (tr : List Ev) : Nat × Nat :=
  tr.foldr (fun e s => ((evFlush e).1 + s.1, (evFlush e).2 + s.2)) (0, 0)

/-- The records carried by a flush event. -/
def evRecords : Ev → List Article
  | .flushBatch b _ => b
  | .flushFinal b _ => b
  | _ => []

/-- All records flushed in a trace, in flush order. -/
def flushedRecords (tr : List Ev) : List Article := (tr.map evRecords).flatten

/-- Recognises an in-loop full-batch flush. -/
def isFlushBatch : Ev → Bool
  | .flushBatch _ _ => true
  | _ => false

/-- Recognises the throttling pause `time.sleep(1)`. -/
def isSleepOne : Ev → Bool
  | .sleepSeconds s => s == 1
  | _ => false

/-- Events that the per-day loader can emit (used to separate loader events
from orchestrator events in the combined run trace). -/
def loaderEv : Ev → Bool
  | .processFile _ => true
  | .skipLine _ _ => true
  | .flushBatch _ _ => true
  | .flushFinal _ _ => true
  | .sleepSeconds _ => true
  | _ => false

theorem flushSum_cons (e : Ev) (tr : List Ev) :
    flushSum (e :: tr) = ((evFlush e).1 + (flushSum tr).1, (evFlush e).2 + (flushSum tr).2) := rfl

theorem flushSum_append (a b : List Ev) :
    flushSum (a ++ b)
      = ((flushSum a).1 + (flushSum b).1, (flushSum a).2 + (flushSum b).2) := by
  induction a with
  | nil => simp [flushSum]
  | cons e rest ih =>
    rw [List.cons_append, flushSum_cons, flushSum_cons, ih]
    simp [Prod.ext_iff]
    omega

theorem flushedRecords_cons (e : Ev) (tr : List Ev) :
    flushedRecords (e :: tr) = evRecords e ++ flushedRecords tr := rfl

theorem flushedRecords_append (a b : List Ev) :
    flushedRecords (a ++ b) = flushedRecords a ++ flushedRecords b := by
  simp [flushedRecords]

/-- Every event the reader logs is a `skipLine`. -/
theorem read_gz_events_skip (parse : String → Except String Article) (key : String) :
    ∀ lines, ∀ e ∈ (read_gz_file_from_s3 parse key lines).2,
      ∃ k err, e = Ev.skipLine k err := by
  intro lines
  induction lines with
  | nil => simp [read_gz_file_from_s3]
  | cons l rest ih =>
    intro e he
    simp only [read_gz_file_from_s3] at he
    by_cases ht : pyStrip l = ""
    · exact ih e (by simpa [ht] using he)
    · simp only [beq_iff_eq, ht, if_false] at he
      cases hp : parse (pyStrip l) with
      | ok a =>
        rw [hp] at he
        exact ih e he
      | error err =>
        rw [hp] at he
        rcases List.mem_cons.mp he with h | h
        · exact ⟨key, err, h⟩
        · exact ih e h

/-- Events that contribute nothing to flush accounting. -/
def noFlushEv : Ev → Bool
  | .flushBatch _ _ => false
  | .flushFinal _ _ => false
  | .sleepSeconds _ => false
  | _ => true

theorem trace_noflush_facts (tr : List Ev) (h : ∀ e ∈ tr, noFlushEv e = true) :
    flushSum tr = (0, 0) ∧ flushedRecords tr = []
  ∧ tr.countP isSleepOne = 0 ∧ tr.countP isFlushBatch = 0 := by
  induction tr with
  | nil => simp [flushSum, flushedRecords]
  | cons e rest ih =>
    have he := h e (List.mem_cons_self _ _)
    have hr := ih (fun x hx => h x (List.mem_cons_of_mem _ hx))
    obtain ⟨h1, h2, h3, h4⟩ := hr
    cases e <;>
      simp_all [flushSum_cons, flushedRecords_cons, evFlush, evRecords, noFlushEv,
        isSleepOne, isFlushBatch, List.countP_cons]

/-- The reader's trace holds no flush-relevant events. -/
theorem read_gz_noflush (parse : String → Except String Article) (key : String)
    (lines : List String) :
    ∀ e ∈ (read_gz_file_from_s3 parse key lines).2, noFlushEv e = true := by
  intro e he
  obtain ⟨k, err, hk⟩ := read_gz_events_skip parse key lines e he
  simp [hk, noFlushEv]

/-- Full specification of the per-day batching loop: the returned totals are
the incoming totals plus the sum of the writer results over all flushes; the
flushed records are exactly the pending batch followed by every record read
from the files, in order; every in-loop flush carries at least 500 records;
the day-end flush (starting from a small pending batch) is nonempty and
below the threshold; and every in-loop flush is matched by exactly one
throttling pause. -/
theorem processLoop_spec {σ : Type} (parse : String → Except String Article)
    (writer : σ → List Article → (Nat × Nat) × σ) :
    ∀ (files : List (String × List String)) (pending : List Article) (ti td : Nat) (st : σ),
      (processLoop parse writer files pending ti td st).1
        = (ti + (flushSum (processLoop parse writer files pending ti td st).2.2).1,
           td + (flushSum (processLoop parse writer files pending ti td st).2.2).2)
    ∧ flushedRecords (processLoop parse writer files pending ti td st).2.2
        = pending ++ (files.map (fun f => (read_gz_file_from_s3 parse f.1 f.2).1)).flatten
    ∧ (∀ b res, Ev.flushBatch b res ∈ (processLoop parse writer files pending ti td st).2.2 →
        500 ≤ b.length)
    ∧ (pending.length < 500 →
        ∀ b res, Ev.flushFinal b res ∈ (processLoop parse writer files pending ti td st).2.2 →
          b ≠ [] ∧ b.length < 500)
    ∧ (processLoop parse writer files pending ti td st).2.2.countP isSleepOne
        = (processLoop parse writer files pending ti td st).2.2.countP isFlushBatch := by
  intro files
  induction files with
  | nil =>
    intro pending ti td st
    by_cases hp : pending.isEmpty
    · refine ⟨?_, ?_, ?_, ?_, ?_⟩ <;>
        simp [processLoop, hp, flushSum, flushedRecords,
          List.isEmpty_iff.mp hp]
    · have hpne : pending ≠ [] := by simpa using hp
      refine ⟨?_, ?_, ?_, ?_, ?_⟩
      · simp [processLoop, hp, flushSum_cons, flushSum, evFlush]
      · simp [processLoop, hp, flushedRecords_cons, flushedRecords, evRecords]
      · intro b res h
        simp [processLoop, hp] at h
      · intro hlen b res h
        simp only [processLoop, hp, Bool.false_eq_true, if_false,
          List.mem_singleton] at h
        obtain ⟨hb, _⟩ := Ev.flushFinal.inj h.symm
        exact ⟨hb ▸ hpne, hb ▸ hlen⟩
      · simp [processLoop, hp, List.countP_cons, isSleepOne, isFlushBatch]
  | cons f rest ih =>
    obtain ⟨key, lines⟩ := f
    intro pending ti td st
    obtain ⟨hfs, hfr, hcs, hcf⟩ :=
      trace_noflush_facts _ (read_gz_noflush parse key lines)
    by_cases h1 : (read_gz_file_from_s3 parse key lines).1.isEmpty
    · have h1' : (read_gz_file_from_s3 parse key lines).1 = [] := by simpa using h1
      have hstep : processLoop parse writer ((key, lines) :: rest) pending ti td st
          = ((processLoop parse writer rest pending ti td st).1,
             (processLoop parse writer rest pending ti td st).2.1,
             Ev.processFile key ::
               ((read_gz_file_from_s3 parse key lines).2 ++
                 (processLoop parse writer rest pending ti td st).2.2)) := by
        simp [processLoop, h1]
      obtain ⟨ih1, ih2, ih3, ih4, ih5⟩ := ih pending ti td st
      rw [hstep]
      refine ⟨?_, ?_, ?_, ?_, ?_⟩
      · simp [flushSum_cons, flushSum_append, evFlush, hfs, ih1]
      · simp [flushedRecords_cons, flushedRecords_append, evRecords, hfr, ih2, h1']
      · intro b res h
        rcases List.mem_cons.mp h with h | h
        · exact absurd h (by simp)
        rcases List.mem_append.mp h with h | h
        · have := read_gz_noflush parse key lines _ h
          simp [noFlushEv] at this
        · exact ih3 b res h
      · intro hlen b res h
        rcases List.mem_cons.mp h with h | h
        · exact absurd h (by simp)
        rcases List.mem_append.mp h with h | h
        · have := read_gz_noflush parse key lines _ h
          simp [noFlushEv] at this
        · exact ih4 hlen b res h
      · simp [List.countP_cons, List.countP_append, isSleepOne, isFlushBatch,
          hcs, hcf, ih5]
    · by_cases h2 : 500 ≤ (pending ++ (read_gz_file_from_s3 parse key lines).1).length
      · have h2' : 500 ≤ pending.length + (read_gz_file_from_s3 parse key lines).1.length := by
          simpa using h2
        have hstep : processLoop parse writer ((key, lines) :: rest) pending ti td st
            = ((processLoop parse writer rest []
                  (ti + (writer st (pending ++ (read_gz_file_from_s3 parse key lines).1)).1.1)
                  (td + (writer st (pending ++ (read_gz_file_from_s3 parse key lines).1)).1.2)
                  (writer st (pending ++ (read_gz_file_from_s3 parse key lines).1)).2).1,
               (processLoop parse writer rest []
                  (ti + (writer st (pending ++ (read_gz_file_from_s3 parse key lines).1)).1.1)
                  (td + (writer st (pending ++ (read_gz_file_from_s3 parse key lines).1)).1.2)
                  (writer st (pending ++ (read_gz_file_from_s3 parse key lines).1)).2).2.1,
               Ev.processFile key ::
                 ((read_gz_file_from_s3 parse key lines).2 ++
                   Ev.flushBatch (pending ++ (read_gz_file_from_s3 parse key lines).1)
                     (writer st (pending ++ (read_gz_file_from_s3 parse key lines).1)).1 ::
                   Ev.sleepSeconds 1 ::
                   (processLoop parse writer rest []
                     (ti + (writer st (pending ++ (read_gz_file_from_s3 parse key lines).1)).1.1)
                     (td + (writer st (pending ++ (read_gz_file_from_s3 parse key lines).1)).1.2)
                     (writer st (pending ++ (read_gz_file_from_s3 parse key lines).1)).2).2.2)) := by
          simp [processLoop, h1, h2, h2']
        obtain ⟨ih1, ih2, ih3, ih4, ih5⟩ := ih []
          (ti + (writer st (pending ++ (read_gz_file_from_s3 parse key lines).1)).1.1)
          (td + (writer st (pending ++ (read_gz_file_from_s3 parse key lines).1)).1.2)
          (writer st (pending ++ (read_gz_file_from_s3 parse key lines).1)).2
        rw [hstep]
        refine ⟨?_, ?_, ?_, ?_, ?_⟩
        · rw [ih1]
          simp [flushSum_cons, flushSum_append, evFlush, hfs, Prod.ext_iff]
          omega
        · simp [flushedRecords_cons, flushedRecords_append, evRecords, hfr, ih2]
        · intro b res h
          rcases List.mem_cons.mp h with h | h
          · exact absurd h (by simp)
          rcases List.mem_append.mp h with h | h
          · have := read_gz_noflush parse key lines _ h
            simp [noFlushEv] at this
          rcases List.mem_cons.mp h with h | h
          · obtain ⟨hb, _⟩ := Ev.flushBatch.inj h
            exact hb ▸ h2
          rcases List.mem_cons.mp h with h | h
          · exact absurd h (by simp)
          · exact ih3 b res h
        · intro hlen b res h
          rcases List.mem_cons.mp h with h | h
          · exact absurd h (by simp)
          rcases List.mem_append.mp h with h | h
          · have := read_gz_noflush parse key lines _ h
            simp [noFlushEv] at this
          rcases List.mem_cons.mp h with h | h
          · exact absurd h (by simp)
          rcases List.mem_cons.mp h with h | h
          · exact absurd h (by simp)
          · exact ih4 (by simp) b res h
        · simp [List.countP_cons, List.countP_append, isSleepOne, isFlushBatch,
            hcs, hcf, ih5]
      · have h2' : ¬ 500 ≤ pending.length + (read_gz_file_from_s3 parse key lines).1.length := by
          simpa using h2
        have hstep : processLoop parse writer ((key, lines) :: rest) pending ti td st
            = ((processLoop parse writer rest
                  (pending ++ (read_gz_file_from_s3 parse key lines).1) ti td st).1,
               (processLoop parse writer rest
                  (pending ++ (read_gz_file_from_s3 parse key lines).1) ti td st).2.1,
               Ev.processFile key ::
                 ((read_gz_file_from_s3 parse key lines).2 ++
                   (processLoop parse writer rest
                     (pending ++ (read_gz_file_from_s3 parse key lines).1) ti td st).2.2)) := by
          simp [processLoop, h1, h2, h2']
        obtain ⟨ih1, ih2, ih3, ih4, ih5⟩ :=
          ih (pending ++ (read_gz_file_from_s3 parse key lines).1) ti td st
        rw [hstep]
        refine ⟨?_, ?_, ?_, ?_, ?_⟩
        · simp [flushSum_cons, flushSum_append, evFlush, hfs, ih1]
        · simp [flushedRecords_cons, flushedRecords_append, evRecords, hfr, ih2]
        · intro b res h
          rcases List.mem_cons.mp h with h | h
          · exact absurd h (by simp)
          rcases List.mem_append.mp h with h | h
          · have := read_gz_noflush parse key lines _ h
            simp [noFlushEv] at this
          · exact ih3 b res h
        · intro hlen b res h
          rcases List.mem_cons.mp h with h | h
          · exact absurd h (by simp)
          rcases List.mem_append.mp h with h | h
          · have := read_gz_noflush parse key lines _ h
            simp [noFlushEv] at this
          · exact ih4 (by omega) b res h
        · simp [List.countP_cons, List.countP_append, isSleepOne, isFlushBatch,
            hcs, hcf, ih5]

/-- C7: within a day, records accumulate into the pending batch and the full
batch is flushed as soon as its size reaches the 500 threshold (every in-loop
flush carries at least 500 records and is matched one-for-one by a
`time.sleep(1)` throttling pause); the trailing batch is flushed at day end
(it is nonempty and below the threshold); no record is lost — the flushed
batches concatenate to exactly the records read from the day's files — and
the day's returned totals are the componentwise sums of the writer results
over all flushes. -/
theorem C7_batching_and_flush_accounting {σ : Type}
    (parse : String → Except String Article)
    (writer : σ → List Article → (Nat × Nat) × σ)
    (files : List (String × List String)) (st : σ) :
    (process_articles_for_day parse writer files st).1
      = flushSum (process_articles_for_day parse writer files st).2.2
  ∧ flushedRecords (process_articles_for_day parse writer files st).2.2
      = (files.map (fun f => (read_gz_file_from_s3 parse f.1 f.2).1)).flatten
  ∧ (∀ b res, Ev.flushBatch b res ∈ (process_articles_for_day parse writer files st).2.2 →
      500 ≤ b.length)
  ∧ (∀ b res, Ev.flushFinal b res ∈ (process_articles_for_day parse writer files st).2.2 →
      b ≠ [] ∧ b.length < 500)
  ∧ (process_articles_for_day parse writer files st).2.2.countP isSleepOne
      = (process_articles_for_day parse writer files st).2.2.countP isFlushBatch := by
  obtain ⟨h1, h2, h3, h4, h5⟩ := processLoop_spec parse writer files [] 0 0 st
  refine ⟨?_, ?_, h3, h4 (by simp), h5⟩
  · rw [process_articles_for_day, h1]
    simp
  · rw [process_articles_for_day, h2]
    simp

/-- Witness for C7: one file with one keyword record yields a single day-end
flush whose batch is nonempty and below the threshold. -/
theorem C7_batching_and_flush_accounting_witness :
    [aTesla] ≠ [] ∧ [aTesla].length < 500 :=
  (C7_batching_and_flush_accounting (fun _ => .ok aTesla)
      (fun (u : Unit) b => ((b.length, 0), u))
      [("20240115/f1.gz", ["line1"])] ()).2.2.2.1 [aTesla] (1, 0) (by decide)

/-- The retry loop of `insert_articles` never emits a `client.close()`. -/
theorem insertLoop_no_release (docs : List Doc) (oc : Nat → AttemptOutcome) :
    ∀ r i, Ev.releaseClient ∉ (insertLoop docs oc r i).2.2 := by
  intro r
  induction r with
  | zero => intro i; simp [insertLoop]
  | succ r ih =>
    intro i
    cases h : oc i <;> simp [insertLoop, h, ih (i + 1)]

/-- C9 check: the claim that every acquired connection is released on every
exit path fails on the code.  When the `dbstats` command raises,
`check_storage_limit` exits before reaching `client.close()` — its trace
ends with the stats command and holds no release — and `insert_articles`
never closes any of the clients it creates on any path. -/
theorem C9_connection_release_gap :
    (check_storage_limit ⟨2024, 1, 15, 0, 0, 0⟩ (.error "ServerSelectionTimeoutError")).2
        = [Ev.acquireCluster cluster1, Ev.statsCommand]
  ∧ Ev.releaseClient ∉ (check_storage_limit ⟨2024, 1, 15, 0, 0, 0⟩
        (.error "ServerSelectionTimeoutError")).2
  ∧ (∀ (arts : List Article) (oc : Nat → AttemptOutcome),
      Ev.releaseClient ∉ (insert_articles arts oc).2) := by
  refine ⟨by decide, by decide, ?_⟩
  intro arts oc
  simp only [insert_articles]
  by_cases h : (prepareDocuments arts).isEmpty
  · simp [h]
  · simp only [h, Bool.false_eq_true, if_false]
    intro hmem
    rcases List.mem_append.mp hmem with h1 | h1
    · exact insertLoop_no_release _ _ _ _ h1
    · split at h1 <;> simp at h1

/-- Witness for C9's universally quantified part at a concrete call. -/
theorem C9_connection_release_gap_witness :
    Ev.releaseClient ∉ (insert_articles [aTesla] (fun _ => .success)).2 :=
  C9_connection_release_gap.2.2 [aTesla] (fun _ => .success)

/-! ### Structure of the orchestrator trace -/

/-- One unfolding step of the orchestrator loop, with the day's events
flattened out. -/
theorem loadLoop_succ {σ : Type} (parse : String → Except String Article)
    (writer : σ → List Article → (Nat × Nat) × σ) (stats : Nat → Nat)
    (filesOf : Nat → List (String × List String)) (base : Date)
    (daysLeft current : Nat) (st : σ) :
    loadLoop parse writer stats filesOf base (daysLeft + 1) current st
      = ((process_articles_for_day parse writer (filesOf current) st).2.2.map
            (fun e => (current, e))) ++
        ((current, Ev.processedDay current
            (process_articles_for_day parse writer (filesOf current) st).1.1
            (process_articles_for_day parse writer (filesOf current) st).1.2) ::
         (current, Ev.logWrite (dateStr8 (dateO base current))
            (process_articles_for_day parse writer (filesOf current) st).1.1
            (process_articles_for_day parse writer (filesOf current) st).1.2) ::
         (current, Ev.acquireCluster (get_client_for_date (dateO base current).toDateTime)) ::
         (current, Ev.statsCommand) :: (current, Ev.releaseClient) ::
         [(current, Ev.storageChecked (get_client_for_date (dateO base current).toDateTime)
            (storage_mb (stats current)))]) ++
        (if (490 : ℚ) < storage_mb (stats current) then [(current, Ev.capacityStop)]
         else loadLoop parse writer stats filesOf base daysLeft (current + 1)
                (process_articles_for_day parse writer (filesOf current) st).2.1) := by
  by_cases hx : (490 : ℚ) < storage_mb (stats current) <;>
    simp [loadLoop, check_storage_limit, hx, List.append_assoc]

/-- Every event of the per-day batching trace is a loader event. -/
theorem processLoop_events_loader {σ : Type} (parse : String → Except String Article)
    (writer : σ → List Article → (Nat × Nat) × σ) :
    ∀ (files : List (String × List String)) (pending : List Article) (ti td : Nat)
      (st : σ), ∀ e ∈ (processLoop parse writer files pending ti td st).2.2,
      loaderEv e = true := by
  intro files
  induction files with
  | nil =>
    intro pending ti td st e he
    by_cases hp : pending.isEmpty
    · simp [processLoop, hp] at he
    · simp only [processLoop, hp, Bool.false_eq_true, if_false,
        List.mem_singleton] at he
      simp [he, loaderEv]
  | cons f rest ih =>
    obtain ⟨key, lines⟩ := f
    intro pending ti td st e he
    simp only [processLoop] at he
    split at he
    · rcases List.mem_cons.mp he with h | h
      · simp [h, loaderEv]
      rcases List.mem_append.mp h with h | h
      · obtain ⟨k, err, hk⟩ := read_gz_events_skip parse key lines e h
        simp [hk, loaderEv]
      · exact ih _ _ _ _ e h
    · split at he
      · rcases List.mem_cons.mp he with h | h
        · simp [h, loaderEv]
        rcases List.mem_append.mp h with h | h
        · obtain ⟨k, err, hk⟩ := read_gz_events_skip parse key lines e h
          simp [hk, loaderEv]
        rcases List.mem_cons.mp h with h | h
        · simp [h, loaderEv]
        rcases List.mem_cons.mp h with h | h
        · simp [h, loaderEv]
        · exact ih _ _ _ _ e h
      · rcases List.mem_cons.mp he with h | h
        · simp [h, loaderEv]
        rcases List.mem_append.mp h with h | h
        · obtain ⟨k, err, hk⟩ := read_gz_events_skip parse key lines e h
          simp [hk, loaderEv]
        · exact ih _ _ _ _ e h

/-- A day appears as processed in the run trace only if it lies in the
remaining range and no earlier day of the run exceeded the storage
ceiling. -/
theorem loadLoop_processedDay_mem {σ : Type} (parse : String → Except String Article)
    (writer : σ → List Article → (Nat × Nat) × σ) (stats : Nat → Nat)
    (filesOf : Nat → List (String × List String)) (base : Date) :
    ∀ (daysLeft current : Nat) (st : σ) (d d' i dp : Nat),
      (d, Ev.processedDay d' i dp) ∈ loadLoop parse writer stats filesOf base daysLeft current st →
      d' = d ∧ current ≤ d ∧ d < current + daysLeft ∧
        ∀ e, current ≤ e → e < d → ¬ (490 : ℚ) < storage_mb (stats e) := by
  intro daysLeft
  induction daysLeft with
  | zero => intro current st d d' i dp h; simp [loadLoop] at h
  | succ k ih =>
    intro current st d d' i dp h
    rw [loadLoop_succ] at h
    rcases List.mem_append.mp h with h | h
    · rcases List.mem_append.mp h with h | h
      · obtain ⟨e, he, heq⟩ := List.mem_map.mp h
        injection heq with h1 h2
        subst h2
        have := processLoop_events_loader parse writer (filesOf current) [] 0 0 st _ he
        simp [loaderEv] at this
      · rcases List.mem_cons.mp h with h | h
        · injection h with h1 h2
          injection h2 with h3 h4 h5
          exact ⟨by omega, by omega, by omega, fun e he1 he2 => absurd he2 (by omega)⟩
        · simp at h
    · by_cases hx : (490 : ℚ) < storage_mb (stats current)
      · rw [if_pos hx] at h
        simp at h
      · rw [if_neg hx] at h
        obtain ⟨hd', hle, hlt, hall⟩ := ih (current + 1) _ d d' i dp h
        refine ⟨hd', by omega, by omega, ?_⟩
        intro e he1 he2
        rcases Nat.eq_or_lt_of_le he1 with heq | hlt2
        · rw [← heq]; exact hx
        · exact hall e (by omega) he2

/-- Conversely, every day of the range up to (and including) the first
ceiling-exceeding day is processed. -/
theorem loadLoop_processedDay_exists {σ : Type} (parse : String → Except String Article)
    (writer : σ → List Article → (Nat × Nat) × σ) (stats : Nat → Nat)
    (filesOf : Nat → List (String × List String)) (base : Date) :
    ∀ (daysLeft current : Nat) (st : σ) (d : Nat),
      current ≤ d → d < current + daysLeft →
      (∀ e, current ≤ e → e < d → ¬ (490 : ℚ) < storage_mb (stats e)) →
      ∃ i dp, (d, Ev.processedDay d i dp) ∈
        loadLoop parse writer stats filesOf base daysLeft current st := by
  intro daysLeft
  induction daysLeft with
  | zero => intro current st d h1 h2 h3; exact absurd h2 (by omega)
  | succ k ih =>
    intro current st d h1 h2 h3
    rw [loadLoop_succ]
    by_cases hd : d = current
    · subst hd
      exact ⟨_, _, List.mem_append.mpr (Or.inl (List.mem_append.mpr
        (Or.inr (List.mem_cons_self _ _))))⟩
    · have hcur : ¬ (490 : ℚ) < storage_mb (stats current) :=
        h3 current Nat.le.refl (by omega)
      rw [if_neg hcur]
      obtain ⟨i, dp, hm⟩ := ih (current + 1)
        (process_articles_for_day parse writer (filesOf current) st).2.1 d
        (by omega) (by omega) (fun e he1 he2 => h3 e (by omega) he2)
      exact ⟨i, dp, List.mem_append.mpr (Or.inr hm)⟩

/-- The capacity-stop event appears in the run trace exactly for the first
in-range day whose reported storage exceeds the ceiling. -/
theorem loadLoop_capacityStop_mem {σ : Type} (parse : String → Except String Article)
    (writer : σ → List Article → (Nat × Nat) × σ) (stats : Nat → Nat)
    (filesOf : Nat → List (String × List String)) (base : Date) :
    ∀ (daysLeft current : Nat) (st : σ) (d : Nat),
      (d, Ev.capacityStop) ∈ loadLoop parse writer stats filesOf base daysLeft current st ↔
        (current ≤ d ∧ d < current + daysLeft ∧ (490 : ℚ) < storage_mb (stats d) ∧
         ∀ e, current ≤ e → e < d → ¬ (490 : ℚ) < storage_mb (stats e)) := by
  intro daysLeft
  induction daysLeft with
  | zero =>
    intro current st d
    constructor
    · intro h; simp [loadLoop] at h
    · rintro ⟨h1, h2, _, _⟩; exact absurd h2 (by omega)
  | succ k ih =>
    intro current st d
    rw [loadLoop_succ]
    by_cases hx : (490 : ℚ) < storage_mb (stats current)
    · rw [if_pos hx]
      constructor
      · intro h
        rcases List.mem_append.mp h with h | h
        · rcases List.mem_append.mp h with h | h
          · obtain ⟨e, he, heq⟩ := List.mem_map.mp h
            injection heq with h1 h2
            subst h2
            have := processLoop_events_loader parse writer (filesOf current) [] 0 0 st _ he
            simp [loaderEv] at this
          · simp at h
        · simp only [List.mem_singleton] at h
          injection h with h1 h2
          subst h1
          exact ⟨Nat.le.refl, by omega, hx, fun e he1 he2 => absurd he2 (by omega)⟩
      · rintro ⟨h1, h2, h3, h4⟩
        have hd : d = current := by
          by_contra hne
          exact (h4 current Nat.le.refl (by omega)) hx
        subst hd
        exact List.mem_append.mpr (Or.inr (by simp))
    · rw [if_neg hx]
      constructor
      · intro h
        rcases List.mem_append.mp h with h | h
        · rcases List.mem_append.mp h with h | h
          · obtain ⟨e, he, heq⟩ := List.mem_map.mp h
            injection heq with h1 h2
            subst h2
            have := processLoop_events_loader parse writer (filesOf current) [] 0 0 st _ he
            simp [loaderEv] at this
          · simp at h
        · obtain ⟨ha, hb, hc, hd⟩ := (ih (current + 1) _ d).mp h
          refine ⟨by omega, by omega, hc, ?_⟩
          intro e he1 he2
          rcases Nat.eq_or_lt_of_le he1 with heq | hlt2
          · rw [← heq]; exact hx
          · exact hd e (by omega) he2
      · rintro ⟨h1, h2, h3, h4⟩
        have hd : d ≠ current := by
          rintro rfl
          exact hx h3
        exact List.mem_append.mpr (Or.inr ((ih (current + 1) _ d).mpr
          ⟨by omega, by omega, h3, fun e he1 he2 => h4 e (by omega) he2⟩))

/-- Every day processed before the first exceeding day also has its storage
check recorded, for the cluster governing that day. -/
theorem loadLoop_storageChecked_exists {σ : Type} (parse : String → Except String Article)
    (writer : σ → List Article → (Nat × Nat) × σ) (stats : Nat → Nat)
    (filesOf : Nat → List (String × List String)) (base : Date) :
    ∀ (daysLeft current : Nat) (st : σ) (d : Nat),
      current ≤ d → d < current + daysLeft →
      (∀ e, current ≤ e → e < d → ¬ (490 : ℚ) < storage_mb (stats e)) →
      (d, Ev.storageChecked (get_client_for_date (dateO base d).toDateTime)
          (storage_mb (stats d))) ∈
        loadLoop parse writer stats filesOf base daysLeft current st := by
  intro daysLeft
  induction daysLeft with
  | zero => intro current st d h1 h2 h3; exact absurd h2 (by omega)
  | succ k ih =>
    intro current st d h1 h2 h3
    rw [loadLoop_succ]
    by_cases hd : d = current
    · subst hd
      exact List.mem_append.mpr (Or.inl (List.mem_append.mpr (Or.inr (by simp))))
    · have hcur : ¬ (490 : ℚ) < storage_mb (stats current) :=
        h3 current Nat.le.refl (by omega)
      rw [if_neg hcur]
      exact List.mem_append.mpr (Or.inr (ih (current + 1)
        (process_articles_for_day parse writer (filesOf current) st).2.1 d
        (by omega) (by omega) (fun e he1 he2 => h3 e (by omega) he2)))

/-- C6: after each processed day the orchestrator checks the storage of the
cluster governing that day; a day is processed only if no earlier day of the
run exceeded the 490 MB ceiling (so an exceeding day halts the range before
the next day); the capacity-stop warning appears in the output exactly for
the first in-range day whose usage exceeds the ceiling — so a capacity stop
is distinguishable from a normal completion, in which it never appears and
every day of the range is processed; and below the ceiling the orchestrator
advances exactly one day. -/
theorem C6_capacity_stop {σ : Type} (parse : String → Except String Article)
    (writer : σ → List Article → (Nat × Nat) × σ) (stats : Nat → Nat)
    (filesOf : Nat → List (String × List String)) (base : Date)
    (startD endD : Nat) (st : σ) :
    (∀ d i dp, (d, Ev.processedDay d i dp) ∈
        load_articles_for_date_range parse writer stats filesOf base startD endD st →
        startD ≤ d ∧ d ≤ endD ∧
          ∀ e, startD ≤ e → e < d → ¬ (490 : ℚ) < storage_mb (stats e))
  ∧ (∀ d i dp, (d, Ev.processedDay d i dp) ∈
        load_articles_for_date_range parse writer stats filesOf base startD endD st →
        (d, Ev.storageChecked (get_client_for_date (dateO base d).toDateTime)
            (storage_mb (stats d))) ∈
          load_articles_for_date_range parse writer stats filesOf base startD endD st)
  ∧ (∀ d, (d, Ev.capacityStop) ∈
        load_articles_for_date_range parse writer stats filesOf base startD endD st ↔
        (startD ≤ d ∧ d ≤ endD ∧ (490 : ℚ) < storage_mb (stats d) ∧
         ∀ e, startD ≤ e → e < d → ¬ (490 : ℚ) < storage_mb (stats e)))
  ∧ (∀ d i dp, (d, Ev.processedDay d i dp) ∈
        load_articles_for_date_range parse writer stats filesOf base startD endD st →
        ¬ (490 : ℚ) < storage_mb (stats d) → d < endD →
        ∃ i2 dp2, (d + 1, Ev.processedDay (d + 1) i2 dp2) ∈
          load_articles_for_date_range parse writer stats filesOf base startD endD st)
  ∧ ((∀ e, startD ≤ e → e ≤ endD → ¬ (490 : ℚ) < storage_mb (stats e)) →
        (∀ d, (d, Ev.capacityStop) ∉
          load_articles_for_date_range parse writer stats filesOf base startD endD st)
      ∧ ∀ d, startD ≤ d → d ≤ endD →
          ∃ i dp, (d, Ev.processedDay d i dp) ∈
            load_articles_for_date_range parse writer stats filesOf base startD endD st) := by
  refine ⟨?_, ?_, ?_, ?_, ?_⟩
  · intro d i dp h
    obtain ⟨_, hle, hlt, hall⟩ :=
      loadLoop_processedDay_mem parse writer stats filesOf base _ _ _ _ _ _ _ h
    exact ⟨hle, by omega, hall⟩
  · intro d i dp h
    obtain ⟨_, hle, hlt, hall⟩ :=
      loadLoop_processedDay_mem parse writer stats filesOf base _ _ _ _ _ _ _ h
    exact loadLoop_storageChecked_exists parse writer stats filesOf base _ _ _ _ hle hlt hall
  · intro d
    simp only [load_articles_for_date_range]
    rw [loadLoop_capacityStop_mem]
    constructor
    · rintro ⟨a, b, c, d2⟩; exact ⟨a, by omega, c, d2⟩
    · rintro ⟨a, b, c, d2⟩; exact ⟨a, by omega, c, d2⟩
  · intro d i dp h hnx hdlt
    obtain ⟨_, hle, hlt, hall⟩ :=
      loadLoop_processedDay_mem parse writer stats filesOf base _ _ _ _ _ _ _ h
    refine loadLoop_processedDay_exists parse writer stats filesOf base _ _ _ _
      (by omega) (by omega) ?_
    intro e he1 he2
    rcases Nat.lt_or_ge e d with hlt2 | hge
    · exact hall e he1 hlt2
    · have : e = d := by omega
      rw [this]; exact hnx
  · intro hall
    constructor
    · intro d hmem
      obtain ⟨a, b, c, _⟩ :=
        (loadLoop_capacityStop_mem parse writer stats filesOf base _ _ _ _).mp hmem
      exact (hall d a (by omega)) c
    · intro d h1 h2
      exact loadLoop_processedDay_exists parse writer stats filesOf base _ _ _ _
        h1 (by omega) (fun e he1 he2 => hall e he1 (by omega))

/-- Witness for C6: over a two-day range where day 1 reports 600 MB, the
capacity-stop warning is emitted for day 1. -/
theorem C6_capacity_stop_witness :
    (1, Ev.capacityStop) ∈
      load_articles_for_date_range (fun _ => .error "malformed")
        (fun (u : Unit) _ => ((0, 0), u))
        (fun d => if d = 0 then 0 else 600 * 1048576) (fun _ => [])
        ⟨2024, 1, 1⟩ 0 1 () :=
  ((C6_capacity_stop (fun _ => .error "malformed") (fun (u : Unit) _ => ((0, 0), u))
      (fun d => if d = 0 then 0 else 600 * 1048576) (fun _ => [])
      ⟨2024, 1, 1⟩ 0 1 ()).2.2.1 1).mpr
    ⟨by omega, by omega, by decide,
     fun e h1 h2 => by
       have he : e = 0 := by omega
       subst he
       decide⟩

/-- Records carried by any event of a trace are among the trace's flushed
records. -/
theorem evRecords_sub_flushed (tr : List Ev) (ev : Ev) (h : ev ∈ tr) :
    ∀ a ∈ evRecords ev, a ∈ flushedRecords tr := by
  induction tr with
  | nil => simp at h
  | cons e rest ih =>
    intro a ha
    rw [flushedRecords_cons]
    rcases List.mem_cons.mp h with heq | hmem
    · subst heq
      exact List.mem_append.mpr (Or.inl ha)
    · exact List.mem_append.mpr (Or.inr (ih hmem a ha))

/-- Any records carried by an event tagged with day `d` in the run trace were
read from day `d`'s partition files. -/
theorem loadLoop_flush_day_records {σ : Type} (parse : String → Except String Article)
    (writer : σ → List Article → (Nat × Nat) × σ) (stats : Nat → Nat)
    (filesOf : Nat → List (String × List String)) (base : Date) :
    ∀ (daysLeft current : Nat) (st : σ) (d : Nat) (ev : Ev),
      (d, ev) ∈ loadLoop parse writer stats filesOf base daysLeft current st →
      ∀ a ∈ evRecords ev, a ∈ ((filesOf d).map
        (fun f => (read_gz_file_from_s3 parse f.1 f.2).1)).flatten := by
  intro daysLeft
  induction daysLeft with
  | zero => intro current st d ev h; simp [loadLoop] at h
  | succ k ih =>
    intro current st d ev h
    rw [loadLoop_succ] at h
    rcases List.mem_append.mp h with h | h
    · rcases List.mem_append.mp h with h | h
      · obtain ⟨e, he, heq⟩ := List.mem_map.mp h
        injection heq with h1 h2
        subst h1
        subst h2
        intro a ha
        have hsub := evRecords_sub_flushed _ _ he a ha
        have hfl := (processLoop_spec parse writer (filesOf current) [] 0 0 st).2.1
        rw [process_articles_for_day] at hsub
        rw [hfl] at hsub
        simpa using hsub
      · intro a ha
        rcases List.mem_cons.mp h with h | h
        · injection h with h1 h2
          subst h2; simp [evRecords] at ha
        rcases List.mem_cons.mp h with h | h
        · injection h with h1 h2
          subst h2; simp [evRecords] at ha
        rcases List.mem_cons.mp h with h | h
        · injection h with h1 h2
          subst h2; simp [evRecords] at ha
        rcases List.mem_cons.mp h with h | h
        · injection h with h1 h2
          subst h2; simp [evRecords] at ha
        rcases List.mem_cons.mp h with h | h
        · injection h with h1 h2
          subst h2; simp [evRecords] at ha
        · simp only [List.mem_singleton] at h
          injection h with h1 h2
          subst h2; simp [evRecords] at ha
    · by_cases hx : (490 : ℚ) < storage_mb (stats current)
      · rw [if_pos hx] at h
        intro a ha
        simp only [List.mem_singleton] at h
        injection h with h1 h2
        subst h2; simp [evRecords] at ha
      · rw [if_neg hx] at h
        exact ih (current + 1) _ d ev h

/-- C10: every flush the pipeline hands to the writer during the run of a
date range consists solely of records read from that one day's partition
files — batches are day-homogeneous, which is what makes resolving the
cluster from the first document's date sound. -/
theorem C10_batches_are_day_homogeneous {σ : Type} (parse : String → Except String Article)
    (writer : σ → List Article → (Nat × Nat) × σ) (stats : Nat → Nat)
    (filesOf : Nat → List (String × List String)) (base : Date)
    (startD endD : Nat) (st : σ) :
    ∀ (d : Nat) (b : List Article) (res : Nat × Nat),
      ((d, Ev.flushBatch b res) ∈
          load_articles_for_date_range parse writer stats filesOf base startD endD st
        ∨ (d, Ev.flushFinal b res) ∈
          load_articles_for_date_range parse writer stats filesOf base startD endD st) →
      ∀ a ∈ b, a ∈ ((filesOf d).map
        (fun f => (read_gz_file_from_s3 parse f.1 f.2).1)).flatten := by
  intro d b res h a ha
  rcases h with h | h
  · exact loadLoop_flush_day_records parse writer stats filesOf base _ _ _ _ _ h a
      (by simpa [evRecords] using ha)
  · exact loadLoop_flush_day_records parse writer stats filesOf base _ _ _ _ _ h a
      (by simpa [evRecords] using ha)

/-- Witness for C10: in a one-day run with one file, the day-end flush's
record comes from that day's files. -/
theorem C10_batches_are_day_homogeneous_witness :
    aTesla ∈ (([("20240101/f1.gz", ["line1"])].map
      (fun f => (read_gz_file_from_s3 (fun _ => .ok aTesla) f.1 f.2).1)).flatten) :=
  C10_batches_are_day_homogeneous (fun _ => .ok aTesla)
    (fun (u : Unit) b => ((b.length, 0), u)) (fun _ => 0)
    (fun _ => [("20240101/f1.gz", ["line1"])]) ⟨2024, 1, 1⟩ 0 0 ()
    0 [aTesla] (1, 0) (Or.inr (by decide)) aTesla (by decide)
